import Mathlib

/-!
Verification of the `http-profiler` connection-and-measurement engine
(`src/connect.rs`, `src/main.rs`) against its natural-language specification.

The Rust code is shallowly embedded: pure functions become Lean functions,
the network is an oracle environment (each attempt's connection behaviour is
a record of the I/O results the peer produces), machine integers become
`Nat`/`Int` with explicit `% 2^32` where a narrowing cast occurs, and a Rust
panic is represented by `Option.none` / a dedicated `panicked` outcome.
`Duration` values are modelled as exact nanosecond counts (`Nat`): all
`Duration` arithmetic used by the source (sum, add, `checked_div`) is exact
at nanosecond precision.  `f64` values are modelled as `Option ℚ` where
`none` stands for a non-finite result; in every division the source
performs, the numerator is zero whenever the denominator is, so `none` is
exactly NaN there, and finite results are exact (no claim below depends on
floating-point rounding).
-/

namespace HttpProfiler

/-- Closed enumeration of the error values that can flow through
`Box<dyn Error>` in `connect.rs`: `NotReachableError` (connect.rs:14),
I/O errors from write/flush/read, TLS-subsystem initialization failure
(`SslConnector::builder`, connect.rs:99) and TLS handshake failure
(`connector.connect`, connect.rs:102).  `resolveErr` stands for a
`socket_addrs` failure (connect.rs:76). -/
inductive SrcError where
  | notReachable
  | resolveErr
  | ioErr (msg : String)
  | tlsInitErr
  | handshakeErr
deriving DecidableEq

/-- A parsed `url::Url` for an `http`/`https` target, as validated by
`main.rs` (scheme restricted, host present).  The record is the
already-normalized parse result of the `url` crate: `port` is `none` when
the URL has no port or the default port for the scheme. -/
structure Url where
  scheme : String
  host : String
  port : Option Nat
  path : String
  query : Option String
deriving DecidableEq

/-- `Url::host_str` of the `url` crate: the host serialization, which never
includes the port (the port has its own accessor).  The `.unwrap()` in the
source never fires for validated http/https URLs, whose host is present. -/
def Url.host_str (u : Url) : String := u.host

/-- `Url::as_str` of the `url` crate: the serialization of the whole URL
(scheme, host, explicit non-default port, path, query). -/
def Url.as_str (u : Url) : String :=
  u.scheme ++ "://" ++ u.host ++
    (match u.port with
     | some p => ":" ++ toString p
     | none => "") ++
  u.path ++
    (match u.query with
     | some q => "?" ++ q
     | none => "")

/-- `get_formatted_request` (connect.rs:250-257): the `format!` call
interpolates `target.as_str()` into the request line and
`target.host_str().unwrap()` into the `Host:` header. -/
def get_formatted_request (target : Url) : String :=
  "GET " ++ Url.as_str target ++ " HTTP/1.1\r\nHost: " ++ Url.host_str target ++
    "\r\nUser-Agent: curl/7.58.0\r\nAccept: */*\r\nConnection: close\r\n\r\n"

/-- Is `b` a UTF-8 continuation byte (`10xxxxxx`)? -/
def isCont (b : Nat) : Bool := 128 ≤ b && b < 192

/-- One step of lossy UTF-8 decoding, fuel-indexed so that every branch is
structurally recursive and kernel-reducible.  Mirrors
`String::from_utf8_lossy`: well-formed 1-4 byte sequences decode to their
code point, anything else contributes a U+FFFD replacement character.
The fuel is always instantiated with the length of the byte list, which
bounds the number of steps. -/
def decodeUtf8Aux : Nat → List Nat → List Char
  | 0, _ => []
  | _ + 1, [] => []
  | fuel + 1, b1 :: t1 =>
    if b1 < 128 then
      Char.ofNat b1 :: decodeUtf8Aux fuel t1
    else if 194 ≤ b1 && b1 ≤ 223 then
      match t1 with
      | b2 :: t2 =>
        if isCont b2 then
          Char.ofNat ((b1 % 32) * 64 + (b2 % 64)) :: decodeUtf8Aux fuel t2
        else Char.ofNat 0xFFFD :: decodeUtf8Aux fuel t1
      | [] => [Char.ofNat 0xFFFD]
    else if 224 ≤ b1 && b1 ≤ 239 then
      match t1 with
      | b2 :: b3 :: t3 =>
        if (if b1 == 224 then 160 ≤ b2 && b2 < 192
            else if b1 == 237 then 128 ≤ b2 && b2 < 160
            else isCont b2) && isCont b3 then
          Char.ofNat ((b1 % 16) * 4096 + (b2 % 64) * 64 + (b3 % 64)) ::
            decodeUtf8Aux fuel t3
        else Char.ofNat 0xFFFD :: decodeUtf8Aux fuel t1
      | _ => Char.ofNat 0xFFFD :: decodeUtf8Aux fuel t1
    else if 240 ≤ b1 && b1 ≤ 244 then
      match t1 with
      | b2 :: b3 :: b4 :: t4 =>
        if (if b1 == 240 then 144 ≤ b2 && b2 < 192
            else if b1 == 244 then 128 ≤ b2 && b2 < 144
            else isCont b2) && isCont b3 && isCont b4 then
          Char.ofNat ((b1 % 8) * 262144 + (b2 % 64) * 4096 + (b3 % 64) * 64 +
              (b4 % 64)) :: decodeUtf8Aux fuel t4
        else Char.ofNat 0xFFFD :: decodeUtf8Aux fuel t1
      | _ => Char.ofNat 0xFFFD :: decodeUtf8Aux fuel t1
    else Char.ofNat 0xFFFD :: decodeUtf8Aux fuel t1

/-- `String::from_utf8_lossy` (connect.rs:228): decode bytes as UTF-8 text,
substituting U+FFFD for invalid sequences instead of failing. -/
def from_utf8_lossy (source : List Nat) : String :=
  ⟨decodeUtf8Aux source.length source⟩

/-- The lazy capture of the regex `^HTTP/1.1 (?P<status_code>.*?) `
(connect.rs:236) after its literal prefix has matched: `.*?` takes the
shortest run of non-newline characters that is followed by a space.  So the
capture is everything before the first space, provided no newline occurs
first; otherwise there is no match. -/
def lazyCapture : List Char → Option (List Char)
  | [] => none
  | c :: rest =>
    if c = ' ' then some []
    else if c = '\n' then none
    else (lazyCapture rest).map (c :: ·)

/-- Matching of the anchored regex `^HTTP/1.1 (?P<status_code>.*?) `
against the decoded text: the literal prefix is `H T T P / 1 <any> 1 ' '`
(the `.` of the pattern is the regex wildcard, matching any character
except a newline), after which `.*?` captures lazily up to a space.
Returns the capture of the `status_code` group, or `none` when the regex
does not match. -/
def regexCapture (text : String) : Option String :=
  match text.data with
  | 'H' :: 'T' :: 'T' :: 'P' :: '/' :: '1' :: c :: '1' :: ' ' :: rest =>
    if c = '\n' then none else (lazyCapture rest).map (fun l => ⟨l⟩)
  | _ => none

/-- Accumulate decimal digits; any non-digit character fails the parse. -/
def parseDigitsAux : List Char → Nat → Option Nat
  | [], acc => some acc
  | c :: rest, acc =>
    if c.isDigit then parseDigitsAux rest (acc * 10 + (c.toNat - 48))
    else none

/-- Rust `str::parse::<i32>()`: an optional sign, then one or more ASCII
digits, and the value must fit in `i32`. -/
def parse_i32 (s : String) : Option Int :=
  let signDigits : Int × List Char :=
    match s.data with
    | '+' :: rest => (1, rest)
    | '-' :: rest => (-1, rest)
    | l => (1, l)
  match signDigits.2 with
  | [] => none
  | _ =>
    match parseDigitsAux signDigits.2 0 with
    | none => none
    | some n =>
      let v : Int := signDigits.1 * n
      if -(2 ^ 31) ≤ v ∧ v < 2 ^ 31 then some v else none

/-- Scan for the first `\r\n\r\n` blank-line sequence; return what follows
it, or `none` when the text has no such sequence.  This is
`text.splitn(2, "\r\n\r\n").last()` (connect.rs:245): at most one split, at
the leftmost occurrence. -/
def dropThroughBlankLine : List Char → Option (List Char)
  | '\r' :: '\n' :: '\r' :: '\n' :: rest => some rest
  | _ :: rest => dropThroughBlankLine rest
  | [] => none

/-- Body extraction (connect.rs:243-245): everything after the first
`\r\n\r\n`, or the entire text when no such sequence exists. -/
def bodyAfterHeaders (text : String) : String :=
  match dropThroughBlankLine text.data with
  | some rest => ⟨rest⟩
  | none => text

/-- `parse_status_code_and_page` (connect.rs:227-248).  Result `none`
models a Rust panic: the source calls `.unwrap()` on `re.captures(&text)`
(connect.rs:237), which panics when the regex does not match the non-empty
decoded text.  On a match, the named group is always present, so the
`None => 0` arm of the source's `captures.name` match is dead; the `0`
default arises only when the captured code field fails `parse::<i32>()`
(`map_or(0, |x| x)`, connect.rs:239). -/
def parse_status_code_and_page (source : List Nat) : Option (Int × String) :=
  let text := from_utf8_lossy source
  if text.length = 0 then some (0, text)
  else
    match regexCapture text with
    | none => none
    | some code => some ((parse_i32 code).getD 0, bodyAfterHeaders text)

/-- Bytes of an ASCII string, modelling Rust `str::as_bytes` for the ASCII
literals used in the theorems below. -/
def asciiBytes (s : String) : List Nat := s.data.map Char.toNat

/-- `ResponseProperties` (connect.rs:29-33).  `time_taken` is the elapsed
`Duration` in nanoseconds. -/
structure ResponseProperties where
  time_taken : Nat
  status_code : Int
  document : String
deriving DecidableEq

/-- The observable behaviour of one established stream, as an oracle: the
results the peer produces for the `write_all`, `flush` and `read_to_end`
calls of `fetch`, and the wall-clock nanoseconds the read takes. -/
structure Conn where
  writeRes : Except SrcError Unit
  flushRes : Except SrcError Unit
  readRes : Except SrcError (List Nat)
  elapsed : Nat

/-- A resolved socket address (opaque in the model). -/
abbrev Addr := Nat

/-- The network environment one attempt sees: the result of
`target.socket_addrs` and per-address results of `TcpStream::connect_timeout`
(with its 5-second timeout; `none` = that address failed to connect) and of
the two `set_*_timeout` calls on the fresh stream. -/
structure AttemptNet where
  resolved : Except SrcError (List Addr)
  connectTo : Addr → Option Conn
  setTimeouts : Conn → Except SrcError Conn

/-- The address fallback loop of `create_regular_connection`
(connect.rs:81-93): try each resolved address in order; a per-address
connect failure is logged and the next address tried; on the first success
apply the read/write timeouts (whose own failure propagates with `?`). -/
def connectLoop (net : AttemptNet) : List Addr → Except SrcError Conn
  | [] => .error .notReachable
  | addr :: rest =>
    match net.connectTo addr with
    | some conn => net.setTimeouts conn
    | none => connectLoop net rest

/-- `create_regular_connection` (connect.rs:75-96): resolve the target's
addresses (`?` on failure), then run the fallback loop; if every address
fails to connect, fail with `NotReachableError`. -/
def create_regular_connection (net : AttemptNet) : Except SrcError Conn :=
  match net.resolved with
  | .error e => .error e
  | .ok addrs => connectLoop net addrs

/-- `create_ssl_connection` (connect.rs:98-103): build the TLS connector
(`?` on TLS-subsystem initialization failure), obtain a regular stream
(`?`), then perform the TLS handshake (`connector.connect`, `?` on
handshake failure).  `builderRes` and `handshake` are oracles for the two
TLS steps; the handshake result is the stream behaviour the subsequent
`fetch` sees. -/
def create_ssl_connection (net : AttemptNet) (builderRes : Except SrcError Unit)
    (handshake : Conn → Except SrcError Conn) : Except SrcError Conn :=
  match builderRes with
  | .error e => .error e
  | .ok _ =>
    match create_regular_connection net with
    | .error e => .error e
    | .ok stream => handshake stream

/-- The outcome of one `fetch` call: a Rust panic (from
`parse_status_code_and_page`), a recoverable `Err`, or `Ok`. -/
inductive FetchOutcome where
  | panicked
  | err (e : SrcError)
  | ok (r : ResponseProperties)
deriving DecidableEq

/-- `fetch` (connect.rs:56-73): write the request, flush, read to end
(each `?` on failure), time the read, then parse the buffer.  The content
argument is the formatted request; the oracle connection determines the
I/O results. -/
def fetch (connection : Conn) (_content : String) : FetchOutcome :=
  match connection.writeRes with
  | .error e => .err e
  | .ok _ =>
    match connection.flushRes with
    | .error e => .err e
    | .ok _ =>
      match connection.readRes with
      | .error e => .err e
      | .ok read_buffer =>
        match parse_status_code_and_page read_buffer with
        | none => .panicked
        | some (code, page) => .ok ⟨connection.elapsed, code, page⟩

/-- The success and failure collections of a `Profiler` (connect.rs:40-41). -/
structure ProfState where
  successful_responses : List ResponseProperties
  failed_responses : List SrcError
deriving DecidableEq

/-- Result of a gather loop: completed normally, aborted by a `?` error on
connection creation (which `profile` turns into `process::exit(1)`), or
crashed by a panic inside `fetch`'s parsing. -/
inductive GatherResult where
  | done (st : ProfState)
  | fatal (e : SrcError) (st : ProfState)
  | panicked (st : ProfState)
deriving DecidableEq

/-- The shared shape of `gather_http_site_statistics` and
`gather_https_site_statistics` (connect.rs:105-137): run the remaining
attempts, creating a brand-new connection per attempt (`?` on creation
failure aborts the loop), routing each fetch outcome into the success or
failure collection.  `i` is the index of the next attempt, used to look up
that attempt's environment. -/
def gatherLoop (mkConn : Nat → Except SrcError Conn) (content : String) :
    Nat → Nat → ProfState → GatherResult
  | _, 0, st => .done st
  | i, remaining + 1, st =>
    match mkConn i with
    | .error e => .fatal e st
    | .ok connection =>
      match fetch connection content with
      | .panicked => .panicked st
      | .err e =>
        gatherLoop mkConn content (i + 1) remaining
          ⟨st.successful_responses, st.failed_responses ++ [e]⟩
      | .ok r =>
        gatherLoop mkConn content (i + 1) remaining
          ⟨st.successful_responses ++ [r], st.failed_responses⟩

/-- `gather_http_site_statistics` (connect.rs:105-120): each attempt uses
`create_regular_connection`. -/
def gather_http_site_statistics (target : Url) (nets : Nat → AttemptNet)
    (number_of_requests : Nat) : GatherResult :=
  gatherLoop (fun i => create_regular_connection (nets i))
    (get_formatted_request target) 0 number_of_requests ⟨[], []⟩

/-- `gather_https_site_statistics` (connect.rs:122-137): each attempt uses
`create_ssl_connection`, whose error — TLS-subsystem, regular-connection or
handshake — propagates with `?` out of the loop. -/
def gather_https_site_statistics (target : Url) (nets : Nat → AttemptNet)
    (builders : Nat → Except SrcError Unit)
    (handshakes : Nat → Conn → Except SrcError Conn)
    (number_of_requests : Nat) : GatherResult :=
  gatherLoop (fun i => create_ssl_connection (nets i) (builders i) (handshakes i))
    (get_formatted_request target) 0 number_of_requests ⟨[], []⟩

/-- The observable end state of the process after `profile`: normal
completion, `process::exit(1)` after an unfixable connection error
(connect.rs:144,149), or a panic abort. -/
inductive ProcResult where
  | finished (st : ProfState)
  | exited (code : Nat) (st : ProfState)
  | panicked (st : ProfState)
deriving DecidableEq

/-- `profile` (connect.rs:140-152): dispatch on the scheme, and turn a
gather error into `process::exit(1)`. -/
def profile (target : Url) (nets : Nat → AttemptNet)
    (builders : Nat → Except SrcError Unit)
    (handshakes : Nat → Conn → Except SrcError Conn)
    (number_of_requests : Nat) : ProcResult :=
  let result :=
    if target.scheme = "https" then
      gather_https_site_statistics target nets builders handshakes number_of_requests
    else
      gather_http_site_statistics target nets number_of_requests
  match result with
  | .done st => .finished st
  | .fatal _ st => .exited 1 st
  | .panicked st => .panicked st

/-- One line of the published report: either a computed value or the
explicit "not available" message printed by a `None` match arm. -/
inductive StatLine (α : Type) where
  | value (v : α)
  | notAvailable
deriving DecidableEq

/-- Wrap an optional computation the way `publish` prints it: the `Some`
arm prints the value, the `None` arm prints a "(no successful responses)"
message. -/
def optStat {α : Type} : Option α → StatLine α
  | some v => StatLine.value v
  | none => StatLine.notAvailable

/-- `f64` division, with `none` for a non-finite result.  In every use in
`publish` the numerator is zero whenever the denominator is, so `none` is
exactly IEEE NaN (`0.0 / 0.0`) there; finite quotients are represented
exactly as rationals (no claim proved below depends on `f64` rounding). -/
def f64div (a b : ℚ) : Option ℚ := if b = 0 then none else some (a / b)

/-- `Iterator::max_by_key` (connect.rs:168): the element with the maximal
key; on ties the last such element. -/
def max_by_key {α : Type} (key : α → Nat) : List α → Option α
  | [] => none
  | x :: xs =>
    match max_by_key key xs with
    | none => some x
    | some y => if key x > key y then some x else some y

/-- The latencies of the successful responses (connect.rs:162). -/
def durations_of (st : ProfState) : List Nat :=
  st.successful_responses.map (·.time_taken)

/-- The body byte sizes of the successful responses (connect.rs:166);
`document.len()` is the UTF-8 byte length. -/
def sizes_of (st : ProfState) : List Nat :=
  st.successful_responses.map (fun r => r.document.utf8ByteSize)

/-- The ascending sort of the latencies (`sorted` of itertools,
connect.rs:164). -/
def sortedDurations (durations : List Nat) : List Nat :=
  durations.insertionSort (· ≤ ·)

/-- The mean latency (connect.rs:163):
`durations.iter().sum::<Duration>().checked_div(durations.len() as u32)`.
The `as u32` cast truncates the length modulo `2^32`; `checked_div`
returns `None` exactly when that truncated divisor is zero. -/
def meanDuration (durations : List Nat) : Option Nat :=
  if durations.length % 2 ^ 32 = 0 then none
  else some (durations.sum / (durations.length % 2 ^ 32))

/-- The median latency (connect.rs:193-205): match on the sorted length;
`0` prints a not-available message, `1` takes the only element, an even
length `x` takes `sorted[x / 2]`, and an odd length `x ≥ 3` averages
`sorted[x / 2]` and `sorted[(x + 1) / 2]` (`checked_div(2)` never fails, so
its `.unwrap()` is exact nanosecond division by 2).  All indices are in
bounds, so `getD _ 0` equals the source's panicking index. -/
def medianDuration (durations : List Nat) : Option Nat :=
  match (sortedDurations durations).length with
  | 0 => none
  | 1 => some ((sortedDurations durations).getD 0 0)
  | x =>
    if x % 2 = 0 then some ((sortedDurations durations).getD (x / 2) 0)
    else some (((sortedDurations durations).getD (x / 2) 0 +
        (sortedDurations durations).getD ((x + 1) / 2) 0) / 2)

/-- Modelled from the spec: the standard statistical median `publish` is
specified to report (spec §4.5 and §9): after ascending sort, the single
middle value `sorted[n / 2]` for odd `n`, and the average of the two true
middle elements `sorted[n / 2 - 1]` and `sorted[n / 2]` with integer-safe
division for even `n`. -/
def median_spec (durations : List Nat) : Option Nat :=
  match (sortedDurations durations).length with
  | 0 => none
  | n =>
    if n % 2 = 1 then some ((sortedDurations durations).getD (n / 2) 0)
    else some (((sortedDurations durations).getD (n / 2 - 1) 0 +
        (sortedDurations durations).getD (n / 2) 0) / 2)

/-- The statistics `publish` prints (connect.rs:155-223), one field per
report line. -/
structure Report where
  total_requests : Nat
  percentage_succeeded : StatLine (Option ℚ)
  non200_percentage : StatLine (Option ℚ)
  unique_non200 : List Int
  representative_document : StatLine String
  fastest_response_time : StatLine Nat
  mean_response_time : StatLine Nat
  median_response_time : StatLine Nat
  slowest_response_time : StatLine Nat
  smallest_size : StatLine Nat
  largest_size : StatLine Nat

/-- `publish` (connect.rs:155-223).  The two percentage lines are printed
unconditionally from `f64` divisions (connect.rs:157,174-181); every other
statistic is printed through a `Some`/`None` match whose `None` arm is an
explicit not-available message. -/
def publish (st : ProfState) : Report :=
  let s := st.successful_responses
  let unsuccessful_status_codes :=
    (s.filter (fun r => r.status_code != 200)).map (·.status_code)
  { total_requests := s.length + st.failed_responses.length
  , percentage_succeeded :=
      .value ((f64div (s.length : ℚ)
        ((s.length + st.failed_responses.length : Nat) : ℚ)).map (· * 100))
  , non200_percentage :=
      .value ((f64div (unsuccessful_status_codes.length : ℚ)
        (s.length : ℚ)).map (· * 100))
  , unique_non200 := unsuccessful_status_codes.dedup
  , representative_document :=
      optStat ((max_by_key (fun r => r.document.utf8ByteSize) s).map (·.document))
  , fastest_response_time := optStat (durations_of st).min?
  , mean_response_time := optStat (meanDuration (durations_of st))
  , median_response_time := optStat (medianDuration (durations_of st))
  , slowest_response_time := optStat (durations_of st).max?
  , smallest_size := optStat (sizes_of st).min?
  , largest_size := optStat (sizes_of st).max? }

/-! ### Helper lemmas about list minima, maxima, sums and the median -/

theorem foldl_min_spec (t : List Nat) (a : Nat) :
    t.foldl min a ∈ a :: t ∧ t.foldl min a ≤ a ∧ ∀ x ∈ t, t.foldl min a ≤ x := by
  induction t generalizing a with
  | nil => simp
  | cons b t ih =>
    obtain ⟨hmem, hle, hall⟩ := ih (min a b)
    simp only [List.foldl_cons]
    refine ⟨?_, ?_, ?_⟩
    · rcases List.mem_cons.mp hmem with h | h
      · rcases min_choice a b with hab | hab
        · rw [h, hab]; exact List.mem_cons_self _ _
        · rw [h, hab]
          exact List.mem_cons_of_mem _ (List.mem_cons_self _ _)
      · exact List.mem_cons_of_mem _ (List.mem_cons_of_mem _ h)
    · exact le_trans hle (min_le_left a b)
    · intro x hx
      rcases List.mem_cons.mp hx with h | h
      · rw [h]; exact le_trans hle (min_le_right a b)
      · exact hall x h

theorem foldl_max_spec (t : List Nat) (a : Nat) :
    t.foldl max a ∈ a :: t ∧ a ≤ t.foldl max a ∧ ∀ x ∈ t, x ≤ t.foldl max a := by
  induction t generalizing a with
  | nil => simp
  | cons b t ih =>
    obtain ⟨hmem, hle, hall⟩ := ih (max a b)
    simp only [List.foldl_cons]
    refine ⟨?_, ?_, ?_⟩
    · rcases List.mem_cons.mp hmem with h | h
      · rcases max_choice a b with hab | hab
        · rw [h, hab]; exact List.mem_cons_self _ _
        · rw [h, hab]
          exact List.mem_cons_of_mem _ (List.mem_cons_self _ _)
      · exact List.mem_cons_of_mem _ (List.mem_cons_of_mem _ h)
    · exact le_trans (le_max_left a b) hle
    · intro x hx
      rcases List.mem_cons.mp hx with h | h
      · rw [h]; exact le_trans (le_max_right a b) hle
      · exact hall x h

theorem min?_spec (l : List Nat) (h : l ≠ []) :
    ∃ m, l.min? = some m ∧ m ∈ l ∧ ∀ x ∈ l, m ≤ x := by
  match l with
  | [] => exact absurd rfl h
  | a :: t =>
    obtain ⟨hmem, hle, hall⟩ := foldl_min_spec t a
    refine ⟨t.foldl min a, rfl, hmem, ?_⟩
    intro x hx
    rcases List.mem_cons.mp hx with hx | hx
    · exact hx ▸ hle
    · exact hall x hx

theorem max?_spec (l : List Nat) (h : l ≠ []) :
    ∃ m, l.max? = some m ∧ m ∈ l ∧ ∀ x ∈ l, x ≤ m := by
  match l with
  | [] => exact absurd rfl h
  | a :: t =>
    obtain ⟨hmem, hle, hall⟩ := foldl_max_spec t a
    refine ⟨t.foldl max a, rfl, hmem, ?_⟩
    intro x hx
    rcases List.mem_cons.mp hx with hx | hx
    · exact hx ▸ hle
    · exact hall x hx

theorem mul_length_le_sum (l : List Nat) (m : Nat) (h : ∀ x ∈ l, m ≤ x) :
    m * l.length ≤ l.sum := by
  induction l with
  | nil => simp
  | cons a t ih =>
    have h1 := h a (List.mem_cons_self _ _)
    have h2 := ih (fun x hx => h x (List.mem_cons_of_mem _ hx))
    simp only [List.sum_cons, List.length_cons, Nat.mul_succ]
    omega

theorem sum_le_mul_length (l : List Nat) (m : Nat) (h : ∀ x ∈ l, x ≤ m) :
    l.sum ≤ m * l.length := by
  induction l with
  | nil => simp
  | cons a t ih =>
    have h1 := h a (List.mem_cons_self _ _)
    have h2 := ih (fun x hx => h x (List.mem_cons_of_mem _ hx))
    simp only [List.sum_cons, List.length_cons, Nat.mul_succ]
    omega

theorem sum_replicate_nat (n x : Nat) : (List.replicate n x).sum = n * x := by
  induction n with
  | zero => simp
  | succ k ih =>
    simp only [List.replicate_succ, List.sum_cons, ih, Nat.succ_mul]
    omega

theorem getD_mem (l : List Nat) (i : Nat) (h : i < l.length) : l.getD i 0 ∈ l := by
  induction l generalizing i with
  | nil => simp at h
  | cons a t ih =>
    match i with
    | 0 => simp
    | j + 1 =>
      have : t.getD j 0 ∈ t := ih j (by simpa using h)
      simpa using Or.inr this

/-- Every value `medianDuration` reports on a non-empty list is the
integer average of two members of the list. -/
theorem median_exists (l : List Nat) (hl : l ≠ []) :
    ∃ a b md, a ∈ l ∧ b ∈ l ∧ medianDuration l = some md ∧ md = (a + b) / 2 := by
  have hperm := List.perm_insertionSort (· ≤ ·) l
  have hmemS : ∀ x ∈ sortedDurations l, x ∈ l := fun x hx => hperm.subset hx
  have hlen : (sortedDurations l).length = l.length := hperm.length_eq
  have hpos : 0 < l.length := List.length_pos.mpr hl
  rcases hn : (sortedDurations l).length with _ | n
  · omega
  rcases n with _ | m
  · refine ⟨(sortedDurations l).getD 0 0, (sortedDurations l).getD 0 0,
      (sortedDurations l).getD 0 0, ?_, ?_, ?_, by omega⟩
    · exact hmemS _ (getD_mem _ 0 (by omega))
    · exact hmemS _ (getD_mem _ 0 (by omega))
    · simp only [medianDuration, hn]
  · by_cases hpar : (m + 2) % 2 = 0
    · refine ⟨(sortedDurations l).getD ((m + 2) / 2) 0,
        (sortedDurations l).getD ((m + 2) / 2) 0,
        (sortedDurations l).getD ((m + 2) / 2) 0, ?_, ?_, ?_, by omega⟩
      · exact hmemS _ (getD_mem _ _ (by omega))
      · exact hmemS _ (getD_mem _ _ (by omega))
      · simp only [medianDuration, hn, hpar, if_pos]
    · refine ⟨(sortedDurations l).getD ((m + 2) / 2) 0,
        (sortedDurations l).getD ((m + 2 + 1) / 2) 0,
        ((sortedDurations l).getD ((m + 2) / 2) 0 +
          (sortedDurations l).getD ((m + 2 + 1) / 2) 0) / 2, ?_, ?_, ?_, rfl⟩
      · exact hmemS _ (getD_mem _ _ (by omega))
      · exact hmemS _ (getD_mem _ _ (by omega))
      · simp only [medianDuration, hn, hpar, if_neg, if_false]

/-! ### Analysis helpers for inspecting the formatted request -/

/-- Scan for the `\r\nHost: ` marker and return what follows it. -/
def afterHostMarker : List Char → Option (List Char)
  | '\r' :: '\n' :: 'H' :: 'o' :: 's' :: 't' :: ':' :: ' ' :: rest => some rest
  | _ :: rest => afterHostMarker rest
  | [] => none

/-- The characters up to the next CRLF. -/
def upToCRLF : List Char → List Char
  | '\r' :: '\n' :: _ => []
  | c :: rest => c :: upToCRLF rest
  | [] => []

/-- The value of the `Host:` header of a formatted request: the text
between the first `\r\nHost: ` marker and the following CRLF. -/
def hostHeaderValue (request : String) : String :=
  match afterHostMarker request.data with
  | some rest => ⟨upToCRLF rest⟩
  | none => ""

/-! ### Concrete inputs used by individual claims -/

/-- A validated plain-http target. -/
def httpUrl : Url := ⟨"http", "example.com", none, "/", none⟩

/-- A validated https target. -/
def httpsUrl : Url := ⟨"https", "example.com", none, "/", none⟩

/-- The URL `http://example.com/path?q=1` of the spec's round-trip property. -/
def exampleUrl : Url := ⟨"http", "example.com", none, "/path", some "q=1"⟩

/-- `http://example.com:8080/path`: a target with an explicit non-default
port. -/
def portUrl : Url := ⟨"http", "example.com", some 8080, "/path", none⟩

/-- An attempt environment in which the single resolved address connects
and the peer closes the connection without sending any bytes. -/
def emptyReadNet : AttemptNet :=
  ⟨.ok [0], fun _ => some ⟨.ok (), .ok (), .ok [], 7⟩, fun c => .ok c⟩

/-- An attempt environment in which the peer answers with bytes that do
not start with the `HTTP/1.1 <code> ` pattern. -/
def garbageNet : AttemptNet :=
  ⟨.ok [0], fun _ => some ⟨.ok (), .ok (), .ok (asciiBytes "garbage"), 3⟩, fun c => .ok c⟩

/-- An attempt environment in which the transport layer always works and
the peer answers with a well-formed 200 response. -/
def workingNet : AttemptNet :=
  ⟨.ok [0],
   fun _ => some ⟨.ok (), .ok (), .ok (asciiBytes "HTTP/1.1 200 OK\r\n\r\nok"), 5⟩,
   fun c => .ok c⟩

/-- Handshake oracle that fails the TLS handshake of attempt 0 and would
let every later attempt proceed. -/
def failingHandshakes : Nat → Conn → Except SrcError Conn
  | 0, _ => .error .handshakeErr
  | _ + 1, c => .ok c

/-! ### Claim theorems -/

/-- C7: parsing the literal byte stream
`b"HTTP/1.1 200 OK\r\nContent-Length: 5\r\n\r\nhello"` yields status code
200 and body `"hello"` (everything after the first `\r\n\r\n`). -/
theorem parse_roundtrip_200 :
    parse_status_code_and_page
      (asciiBytes "HTTP/1.1 200 OK\r\nContent-Length: 5\r\n\r\nhello") =
      some (200, "hello") := by decide

/-- C8: the 0-length response byte sequence parses to status code 0 with
an empty body, and the measurement loop records the attempt in the
success collection (a degenerate success), not as a failure. -/
theorem empty_response_degenerate_success :
    parse_status_code_and_page [] = some (0, "") ∧
    gather_http_site_statistics httpUrl (fun _ => emptyReadNet) 1 =
      .done ⟨[⟨7, 0, ""⟩], []⟩ := by decide

/-- C4: the source's median diverges from the standard median the claim
states.  For the odd-length latencies 10,20,30 (ns) the source averages
`sorted[1]` and `sorted[2]`, reporting 25 instead of the middle value 20;
for the even-length 10,20,30,40 it reports the single element `sorted[2]`
= 30 instead of the average 25 of the two true middle elements. -/
theorem median_formula_divergence :
    medianDuration [10, 20, 30] = some 25 ∧
    median_spec [10, 20, 30] = some 20 ∧
    medianDuration [10, 20, 30, 40] = some 30 ∧
    median_spec [10, 20, 30, 40] = some 25 := by decide

/-- C5 counterexample: for `http://example.com/path?q=1` the formatted
request puts the full absolute URL in the request line, not the claimed
path+query form. -/
theorem request_line_absolute_url_cex :
    get_formatted_request exampleUrl =
      "GET http://example.com/path?q=1 HTTP/1.1\r\nHost: example.com\r\nUser-Agent: curl/7.58.0\r\nAccept: */*\r\nConnection: close\r\n\r\n" ∧
    get_formatted_request exampleUrl ≠
      "GET /path?q=1 HTTP/1.1\r\nHost: example.com\r\nUser-Agent: curl/7.58.0\r\nAccept: */*\r\nConnection: close\r\n\r\n" := by
  decide

/-- C5 amended: for every target URL the formatted request equals exactly
`GET <full URL serialization> HTTP/1.1\r\nHost: <host>\r\nUser-Agent:
curl/7.58.0\r\nAccept: */*\r\nConnection: close\r\n\r\n`: the request line
carries `Url::as_str`, the whole absolute URL, rather than only path and
query. -/
theorem request_format :
    (∀ u : Url, get_formatted_request u =
      "GET " ++ Url.as_str u ++ " HTTP/1.1\r\nHost: " ++ Url.host_str u ++
        "\r\nUser-Agent: curl/7.58.0\r\nAccept: */*\r\nConnection: close\r\n\r\n") ∧
    Url.as_str exampleUrl = "http://example.com/path?q=1" :=
  ⟨fun _ => rfl, by decide⟩

/-- C10: the `Host:` header always carries `Url::host_str`, the host name
without a port; even for the explicit non-default port target
`http://example.com:8080/path`, whose request line does contain `:8080`,
the `Host:` header value is exactly `example.com` with no colon. -/
theorem host_header_no_port :
    (∀ u : Url, get_formatted_request u =
      "GET " ++ Url.as_str u ++ " HTTP/1.1\r\nHost: " ++ u.host ++
        "\r\nUser-Agent: curl/7.58.0\r\nAccept: */*\r\nConnection: close\r\n\r\n") ∧
    portUrl.port = some 8080 ∧
    Url.as_str portUrl = "http://example.com:8080/path" ∧
    hostHeaderValue (get_formatted_request portUrl) = "example.com" ∧
    ':' ∉ (hostHeaderValue (get_formatted_request portUrl)).data :=
  ⟨fun _ => rfl, rfl, by decide, by decide, by decide⟩

/-- C1 counterexample: with a working transport and a TLS handshake that
fails on attempt 0 of 2, the https measurement loop aborts with the
handshake error — no entry is added to the failure collection, the second
attempt is never made, and the process exits non-zero.  This contradicts
the claim that a handshake failure is a recorded per-attempt failure after
which the loop proceeds. -/
theorem tls_handshake_abort_cex :
    gather_https_site_statistics httpsUrl (fun _ => workingNet) (fun _ => .ok ())
      failingHandshakes 2 = .fatal .handshakeErr ⟨[], []⟩ ∧
    (∀ st, gather_https_site_statistics httpsUrl (fun _ => workingNet) (fun _ => .ok ())
      failingHandshakes 2 ≠ .done st) ∧
    profile httpsUrl (fun _ => workingNet) (fun _ => .ok ()) failingHandshakes 2 =
      .exited 1 ⟨[], []⟩ := by
  have hg : gather_https_site_statistics httpsUrl (fun _ => workingNet) (fun _ => .ok ())
      failingHandshakes 2 = .fatal .handshakeErr ⟨[], []⟩ := by decide
  refine ⟨hg, ?_, by decide⟩
  intro st h
  rw [hg] at h
  exact GatherResult.noConfusion h

/-- C1 amended: a TLS handshake failure on an individual stream is fatal
to the session, exactly like TLS-subsystem initialization failure: the
error from `create_ssl_connection` propagates out of the measurement loop
with `?` before anything is recorded, and `profile` exits the process with
a non-zero code; the loop does not proceed to the next attempt. -/
theorem tls_handshake_failure_fatal (u : Url) (nets : Nat → AttemptNet)
    (builders : Nat → Except SrcError Unit)
    (handshakes : Nat → Conn → Except SrcError Conn)
    (n : Nat) (c : Conn) (hn : 0 < n) (hu : u.scheme = "https")
    (hb : builders 0 = .ok ())
    (hreg : create_regular_connection (nets 0) = .ok c)
    (hhs : handshakes 0 c = .error .handshakeErr) :
    gather_https_site_statistics u nets builders handshakes n =
      .fatal .handshakeErr ⟨[], []⟩ ∧
    profile u nets builders handshakes n = .exited 1 ⟨[], []⟩ := by
  obtain ⟨k, rfl⟩ : ∃ k, n = k + 1 := ⟨n - 1, by omega⟩
  have hg : gather_https_site_statistics u nets builders handshakes (k + 1) =
      .fatal .handshakeErr ⟨[], []⟩ := by
    simp only [gather_https_site_statistics, gatherLoop, create_ssl_connection,
      hb, hreg, hhs]
  exact ⟨hg, by simp only [profile, if_pos hu, hg]⟩

/-- Witness for the amended C1 theorem at a concrete environment. -/
theorem tls_handshake_failure_fatal_witness :
    gather_https_site_statistics httpsUrl (fun _ => emptyReadNet) (fun _ => .ok ())
      (fun _ _ => .error .handshakeErr) 1 = .fatal .handshakeErr ⟨[], []⟩ ∧
    profile httpsUrl (fun _ => emptyReadNet) (fun _ => .ok ())
      (fun _ _ => .error .handshakeErr) 1 = .exited 1 ⟨[], []⟩ :=
  tls_handshake_failure_fatal httpsUrl (fun _ => emptyReadNet) (fun _ => .ok ())
    (fun _ _ => .error .handshakeErr) 1 ⟨.ok (), .ok (), .ok [], 7⟩
    (by decide) rfl rfl rfl rfl

/-- C2 counterexample: the non-empty response bytes `b"garbage"` do not
begin with the `HTTP/1.1 <code> ` pattern; `parse_status_code_and_page`
panics (the `.unwrap()` of the failed regex capture), the attempt is
recorded in neither collection, and the process crashes rather than
continuing — contradicting the claim that this is a recorded per-attempt
failure that never panics. -/
theorem parse_unmatched_panics_cex :
    parse_status_code_and_page (asciiBytes "garbage") = none ∧
    gather_http_site_statistics httpUrl (fun _ => garbageNet) 1 = .panicked ⟨[], []⟩ ∧
    profile httpUrl (fun _ => garbageNet) (fun _ => .ok ()) (fun _ c => .ok c) 1 =
      .panicked ⟨[], []⟩ := by decide

/-- C2 amended: for every non-empty response byte sequence whose
lossily-decoded text does not begin with the `HTTP/1.1 <code> ` pattern,
parsing panics — `parse_status_code_and_page` has no non-panicking result
— and the `fetch` of such an attempt aborts the process instead of
producing a recordable failure entry. -/
theorem parse_unmatched_panics (buf : List Nat) (c : Conn) (content : String)
    (h1 : (from_utf8_lossy buf).length ≠ 0)
    (h2 : regexCapture (from_utf8_lossy buf) = none)
    (hw : c.writeRes = .ok ()) (hf : c.flushRes = .ok ())
    (hr : c.readRes = .ok buf) :
    parse_status_code_and_page buf = none ∧ fetch c content = .panicked := by
  have hp : parse_status_code_and_page buf = none := by
    simp only [parse_status_code_and_page]
    rw [if_neg h1, h2]
  exact ⟨hp, by simp only [fetch, hw, hf, hr, hp]⟩

/-- Witness for the amended C2 theorem at the concrete bytes `b"bogus"`. -/
theorem parse_unmatched_panics_witness :
    parse_status_code_and_page (asciiBytes "bogus") = none ∧
    fetch ⟨.ok (), .ok (), .ok (asciiBytes "bogus"), 2⟩ "" = .panicked :=
  parse_unmatched_panics (asciiBytes "bogus")
    ⟨.ok (), .ok (), .ok (asciiBytes "bogus"), 2⟩ ""
    (by decide) (by decide) rfl rfl rfl

/-- C9: when the target resolves but every resolved address fails to
connect (tried in resolver order), `create_regular_connection` fails with
`NotReachableError`, and `profile` — for either scheme, given a working
TLS builder — terminates the process with exit code 1 while both the
success and failure collections are empty. -/
theorem all_addresses_unreachable (u : Url) (net : AttemptNet) (addrs : List Addr)
    (builders : Nat → Except SrcError Unit)
    (handshakes : Nat → Conn → Except SrcError Conn)
    (n : Nat) (hn : 0 < n)
    (hres : net.resolved = .ok addrs)
    (hfail : ∀ a ∈ addrs, net.connectTo a = none)
    (hb : builders 0 = .ok ()) :
    create_regular_connection net = .error .notReachable ∧
    profile u (fun _ => net) builders handshakes n = .exited 1 ⟨[], []⟩ := by
  have hreg : create_regular_connection net = .error .notReachable := by
    have hloop : ∀ l, (∀ a ∈ l, net.connectTo a = none) →
        connectLoop net l = .error .notReachable := by
      intro l hl
      induction l with
      | nil => rfl
      | cons a t ih =>
        simp only [connectLoop, hl a (List.mem_cons_self _ _)]
        exact ih (fun x hx => hl x (List.mem_cons_of_mem _ hx))
    simp only [create_regular_connection, hres]
    exact hloop addrs hfail
  refine ⟨hreg, ?_⟩
  obtain ⟨k, rfl⟩ : ∃ k, n = k + 1 := ⟨n - 1, by omega⟩
  by_cases hs : u.scheme = "https"
  · simp only [profile, if_pos hs, gather_https_site_statistics, gatherLoop,
      create_ssl_connection, hb, hreg]
  · simp only [profile, if_neg hs, gather_http_site_statistics, gatherLoop, hreg]

/-- Witness for the C9 theorem: two resolved addresses, both unreachable. -/
theorem all_addresses_unreachable_witness :
    create_regular_connection ⟨.ok [0, 1], fun _ => none, fun c => .ok c⟩ =
      .error .notReachable ∧
    profile httpUrl (fun _ => ⟨.ok [0, 1], fun _ => none, fun c => .ok c⟩)
      (fun _ => .ok ()) (fun _ c => .ok c) 2 = .exited 1 ⟨[], []⟩ :=
  all_addresses_unreachable httpUrl ⟨.ok [0, 1], fun _ => none, fun c => .ok c⟩
    [0, 1] (fun _ => .ok ()) (fun _ c => .ok c) 2 (by decide) rfl
    (fun a _ => rfl) rfl

/-- C3 counterexample: for the empty run (no successes, no failures) the
two percentage lines are printed as unconditionally computed `f64`
divisions — both are NaN (`0.0 / 0.0`) — and neither takes a
not-available branch, contradicting the claim that every aggregate
statistic independently reports "not available". -/
theorem empty_stats_nan_cex :
    (publish ⟨[], []⟩).non200_percentage = .value none ∧
    (publish ⟨[], []⟩).non200_percentage ≠ .notAvailable ∧
    (publish ⟨[], []⟩).percentage_succeeded = .value none ∧
    (publish ⟨[], []⟩).percentage_succeeded ≠ .notAvailable := by decide

/-- C3 amended: when the successful-response collection is empty the
min/mean/median/max latency, min/max body size and representative body
each independently report "not available"; the two percentage statistics
are instead computed unconditionally as `f64` divisions — the non-200
percentage is NaN (0/0) whenever successes are empty, and the success
percentage is NaN when there are also no failures and 0% otherwise. -/
theorem empty_stats_report (fails : List SrcError) :
    (publish ⟨[], fails⟩).fastest_response_time = .notAvailable ∧
    (publish ⟨[], fails⟩).mean_response_time = .notAvailable ∧
    (publish ⟨[], fails⟩).median_response_time = .notAvailable ∧
    (publish ⟨[], fails⟩).slowest_response_time = .notAvailable ∧
    (publish ⟨[], fails⟩).smallest_size = .notAvailable ∧
    (publish ⟨[], fails⟩).largest_size = .notAvailable ∧
    (publish ⟨[], fails⟩).representative_document = .notAvailable ∧
    (publish ⟨[], fails⟩).non200_percentage = .value none ∧
    (publish ⟨[], fails⟩).percentage_succeeded =
      .value (if fails.length = 0 then none else some 0) := by
  refine ⟨rfl, rfl, rfl, rfl, rfl, rfl, rfl, rfl, ?_⟩
  cases fails with
  | nil => rfl
  | cons f fs =>
    have hne : (((0 + (fs.length + 1) : Nat)) : ℚ) ≠ 0 := by
      push_cast
      positivity
    simp only [publish, List.length_nil, List.length_cons, f64div, if_neg hne,
      Nat.succ_ne_zero, if_false, Option.map_some', Nat.cast_zero, zero_div,
      zero_mul]

/-- C6 counterexample: a collection of `2^32 + 1` successful responses of
1 ns each.  The `as u32` cast in
`durations.iter().sum().checked_div(durations.len() as u32)` truncates the
length to 1, so the reported mean is the whole sum `2^32 + 1` ns — outside
the interval [min, max] = [1, 1] — refuting the claim for collections of
size `n ≥ 2^32`. -/
theorem mean_u32_truncation_cex :
    (publish ⟨List.replicate (2 ^ 32 + 1) ⟨1, 200, ""⟩, []⟩).fastest_response_time =
      .value 1 ∧
    (publish ⟨List.replicate (2 ^ 32 + 1) ⟨1, 200, ""⟩, []⟩).slowest_response_time =
      .value 1 ∧
    (publish ⟨List.replicate (2 ^ 32 + 1) ⟨1, 200, ""⟩, []⟩).mean_response_time =
      .value (2 ^ 32 + 1) ∧
    ¬(2 ^ 32 + 1 ≤ 1) := by
  have hdur : durations_of ⟨List.replicate (2 ^ 32 + 1) ⟨1, 200, ""⟩, []⟩ =
      List.replicate (2 ^ 32 + 1) 1 := by
    simp only [durations_of, List.map_replicate]
  have hne : (List.replicate (2 ^ 32 + 1) (1 : Nat)) ≠ [] := by
    apply List.ne_nil_of_length_pos
    rw [List.length_replicate]
    positivity
  have hlen : (List.replicate (2 ^ 32 + 1) (1 : Nat)).length = 2 ^ 32 + 1 :=
    List.length_replicate _ _
  have hmod : (2 ^ 32 + 1) % 2 ^ 32 = 1 := by
    rw [Nat.add_mod_left]
    exact Nat.mod_eq_of_lt (by norm_num)
  have hsum : (List.replicate (2 ^ 32 + 1) (1 : Nat)).sum = 2 ^ 32 + 1 := by
    rw [sum_replicate_nat, mul_one]
  have hmean : meanDuration (List.replicate (2 ^ 32 + 1) (1 : Nat)) =
      some (2 ^ 32 + 1) := by
    rw [meanDuration, hlen, hmod, if_neg one_ne_zero, hsum, Nat.div_one]
  obtain ⟨mn, hmn, hmnmem, _⟩ := min?_spec _ hne
  obtain ⟨mx, hmx, hmxmem, _⟩ := max?_spec _ hne
  have hmn1 : mn = 1 := List.eq_of_mem_replicate hmnmem
  have hmx1 : mx = 1 := List.eq_of_mem_replicate hmxmem
  subst hmn1 hmx1
  refine ⟨?_, ?_, ?_, by norm_num⟩
  · calc (publish ⟨List.replicate (2 ^ 32 + 1) ⟨1, 200, ""⟩, []⟩).fastest_response_time
        = optStat (durations_of ⟨List.replicate (2 ^ 32 + 1) ⟨1, 200, ""⟩, []⟩).min? := rfl
      _ = optStat (List.replicate (2 ^ 32 + 1) (1 : Nat)).min? := by rw [hdur]
      _ = optStat (some 1) := by rw [hmn]
      _ = .value 1 := rfl
  · calc (publish ⟨List.replicate (2 ^ 32 + 1) ⟨1, 200, ""⟩, []⟩).slowest_response_time
        = optStat (durations_of ⟨List.replicate (2 ^ 32 + 1) ⟨1, 200, ""⟩, []⟩).max? := rfl
      _ = optStat (List.replicate (2 ^ 32 + 1) (1 : Nat)).max? := by rw [hdur]
      _ = optStat (some 1) := by rw [hmx]
      _ = .value 1 := rfl
  · calc (publish ⟨List.replicate (2 ^ 32 + 1) ⟨1, 200, ""⟩, []⟩).mean_response_time
        = optStat (meanDuration (durations_of ⟨List.replicate (2 ^ 32 + 1) ⟨1, 200, ""⟩, []⟩)) :=
          rfl
      _ = optStat (meanDuration (List.replicate (2 ^ 32 + 1) 1)) := by rw [hdur]
      _ = optStat (some (2 ^ 32 + 1)) := by rw [hmean]
      _ = .value (2 ^ 32 + 1) := rfl

/-- C6 amended: for every successful-response collection of size `n` with
`1 ≤ n < 2^32` (so that the `as u32` cast of the length is exact and
non-zero), the published statistics satisfy min ≤ median ≤ max latency and
the mean lies within [min, max]. -/
theorem stats_ordered (st : ProfState) (h1 : st.successful_responses ≠ [])
    (h2 : st.successful_responses.length < 2 ^ 32) :
    ∃ mn mx md me,
      (publish st).fastest_response_time = .value mn ∧
      (publish st).slowest_response_time = .value mx ∧
      (publish st).median_response_time = .value md ∧
      (publish st).mean_response_time = .value me ∧
      mn ≤ md ∧ md ≤ mx ∧ mn ≤ me ∧ me ≤ mx := by
  have hlne : durations_of st ≠ [] := by
    simp only [durations_of, ne_eq, List.map_eq_nil_iff]
    exact h1
  have hlen : (durations_of st).length = st.successful_responses.length := by
    simp [durations_of]
  have hlpos : 0 < (durations_of st).length := List.length_pos.mpr hlne
  obtain ⟨mn, hmn, _, hmnle⟩ := min?_spec _ hlne
  obtain ⟨mx, hmx, _, hmxge⟩ := max?_spec _ hlne
  obtain ⟨a, b, md, ha, hb, hmd, hmdeq⟩ := median_exists _ hlne
  have hmod : (durations_of st).length % 2 ^ 32 = (durations_of st).length :=
    Nat.mod_eq_of_lt (by omega)
  have hmean : meanDuration (durations_of st) =
      some ((durations_of st).sum / (durations_of st).length) := by
    rw [meanDuration, hmod, if_neg (by omega)]
  refine ⟨mn, mx, md, (durations_of st).sum / (durations_of st).length,
    ?_, ?_, ?_, ?_, ?_, ?_, ?_, ?_⟩
  · simp only [publish, hmn, optStat]
  · simp only [publish, hmx, optStat]
  · simp only [publish, hmd, optStat]
  · simp only [publish, hmean, optStat]
  · have hna := hmnle a ha
    have hnb := hmnle b hb
    omega
  · have hxa := hmxge a ha
    have hxb := hmxge b hb
    omega
  · exact (Nat.le_div_iff_mul_le hlpos).mpr (mul_length_le_sum _ mn hmnle)
  · have hs := sum_le_mul_length _ mx hmxge
    calc (durations_of st).sum / (durations_of st).length
        ≤ mx * (durations_of st).length / (durations_of st).length :=
          Nat.div_le_div_right hs
      _ = mx := Nat.mul_div_cancel mx hlpos

/-- Witness for the amended C6 theorem at the concrete latencies 3, 1, 2. -/
theorem stats_ordered_witness :
    ∃ mn mx md me,
      (publish ⟨[⟨3, 200, "a"⟩, ⟨1, 200, ""⟩, ⟨2, 200, "bb"⟩], []⟩).fastest_response_time =
        .value mn ∧
      (publish ⟨[⟨3, 200, "a"⟩, ⟨1, 200, ""⟩, ⟨2, 200, "bb"⟩], []⟩).slowest_response_time =
        .value mx ∧
      (publish ⟨[⟨3, 200, "a"⟩, ⟨1, 200, ""⟩, ⟨2, 200, "bb"⟩], []⟩).median_response_time =
        .value md ∧
      (publish ⟨[⟨3, 200, "a"⟩, ⟨1, 200, ""⟩, ⟨2, 200, "bb"⟩], []⟩).mean_response_time =
        .value me ∧
      mn ≤ md ∧ md ≤ mx ∧ mn ≤ me ∧ me ≤ mx :=
  stats_ordered ⟨[⟨3, 200, "a"⟩, ⟨1, 200, ""⟩, ⟨2, 200, "bb"⟩], []⟩
    (by decide) (by decide)

end HttpProfiler
